import Mathlib

/- Verification of the go-logger package (logger.go, nul.go, stdwrapper.go).
   Go strings are modelled as lists of characters, Go int flag words as Nat
   (the Go bit-clear a AND-NOT m is goClear a m), the file system seen by
   log rotation as an association list from file names to file contents, and
   the event channel drained by the writer goroutine as a FIFO list. -/

abbrev Str := List Char

def str (s : String) : Str := s.data

/- Log priorities from logger.go; Priority is a Go int. -/
abbrev Priority := Int

def LOG_NONE : Priority := 0
def LOG_DEBUG : Priority := 1
def LOG_INFO : Priority := 2
def LOG_WARN : Priority := 3
def LOG_ERR : Priority := 4
def LOG_CRIT : Priority := 5
def LOG_EMERG : Priority := 6
def logMax : Priority := 7

/- Flag bits from logger.go, 1 shifted left by iota. -/
def Ldate : Nat := 1
def Ltime : Nat := 2
def Lmicroseconds : Nat := 4
def Lfileloc : Nat := 8
def Lfullpath : Nat := 16
def Lreltime : Nat := 32
def lSyslog : Nat := 64
def lPrefix : Nat := 128
def lClose : Nat := 256
def lSublog : Nat := 512
def lRotate : Nat := 1024
def Lstdflag : Nat := Ldate ||| Ltime

/-- The Go bit-clear operator a AND-NOT m on non-negative flag words:
remove from a the bits it shares with m. The XOR form keeps the function
kernel-computable. -/
def goClear (a m : Nat) : Nat := a ^^^ (a &&& m)

/-- Destinations a logger can write to. File descriptors, standard streams
and the syslog transport are external resources; the model only tracks
which one the logger points at. -/
inductive Dest
  | stdout
  | stderr
  | fileD
  | syslogD
  | writerD
  deriving DecidableEq, Repr

/-- A UTC instant as Go time.Time exposes it to logger.go: calendar and
clock fields for timestamp rendering plus an absolute nanosecond count for
durations (t.Sub). -/
structure GoTime where
  year : Nat
  month : Nat
  day : Nat
  hour : Nat
  minute : Nat
  sec : Nat
  nanos : Nat
  abs : Nat
  deriving DecidableEq, Repr

/-- Digits of the itoa loop in logger.go, with an explicit fuel argument
so the function stays structurally recursive: u + wid strictly decreases at
every loop iteration, so the fuel in itoaCore below never runs out and the
fuel-exhausted base case is unreachable (itoaCore_eq recovers the loop
equation). -/
def itoaCoreF : Nat → Nat → Nat → Str
  | 0, u, _ => [Char.ofNat (48 + u)]
  | f + 1, u, wid =>
    if 10 ≤ u ∨ 1 < wid then
      itoaCoreF f (u / 10) (wid - 1) ++ [Char.ofNat (48 + u % 10)]
    else [Char.ofNat (48 + u)]

/-- Digits of the itoa loop in logger.go: emit the decimal digits of u,
zero padded on the left to width wid. -/
def itoaCore (u wid : Nat) : Str := itoaCoreF (u + wid) u wid

/-- itoa from logger.go appends the rendered integer to the buffer. -/
def itoa (out : Str) (i : Nat) (wid : Nat) : Str := out ++ itoaCore i wid

/-- timestamp from logger.go: printable timestamp for t under the flags fl. -/
def timestamp (out : Str) (t : GoTime) (fl : Nat) : Str :=
  if fl &&& (Ldate ||| Ltime ||| Lmicroseconds) = 0 then out
  else
    let date : Bool := fl &&& Ldate != 0
    let out :=
      if fl &&& Ldate != 0 then
        itoa (itoa (itoa out t.year 4 ++ str "/") t.month 2 ++ str "/") t.day 2
      else out
    if fl &&& (Ltime ||| Lmicroseconds) != 0 then
      let microsecs := t.nanos / 1000
      let out := if date then out ++ str " " else out
      let out := itoa out t.hour 2 ++ str ":"
      let out := itoa out t.minute 2 ++ str ":"
      let out := itoa out t.sec 2 ++ str "."
      if fl &&& Lmicroseconds != 0 then itoa out microsecs 6
      else itoa out (microsecs / 1000) 3
    else out

/-- Rendering of a relative duration in nanoseconds. Go delegates this to
time.Duration.String, which is outside this repository; the claims depend
only on the plus sign that formatHeader prepends, so the model renders the
raw nanosecond count. -/
def durStr (d : Nat) : Str := (Nat.repr d).data ++ str "ns"

/-- Decimal rendering of a Go int (fmt %d). -/
def intStr (i : Int) : Str := (toString i).data

/-- Decimal rendering of a Go non-negative int (fmt %d). -/
def natStr (n : Nat) : Str := (Nat.repr n).data

/-- prioString map and the Priority String method from logger.go. -/
def prioStringMap (p : Priority) : Option Str :=
  if p = LOG_DEBUG then some (str "DEBUG")
  else if p = LOG_INFO then some (str "INFO")
  else if p = LOG_WARN then some (str "WARNING")
  else if p = LOG_ERR then some (str "ERROR")
  else if p = LOG_CRIT then some (str "CRITICAL")
  else if p = LOG_EMERG then some (str "EMERGENCY")
  else if p = LOG_NONE then some (str "NONE")
  else none

/-- Priority.String: the name for priorities below logMax (a missing map
entry yields the Go zero string), otherwise an invalid-prio rendering. -/
def prioStr (p : Priority) : Str :=
  if p < logMax then (prioStringMap p).getD []
  else str "invalid-prio-" ++ intStr p

/-- The xLogger struct of logger.go. The output channel bookkeeping and the
cached std logger are modelled separately where the claims need them. -/
structure XLogger where
  prio : Priority
  pfx : Str
  flag : Nat
  out : Dest
  name : Str := []
  relstart : Bool := false
  start : Nat := 0
  rot_n : Nat := 0
  deriving DecidableEq, Repr

/-- formatHeader from logger.go. Returns the buffer with the header
appended together with the new value of the relstart flag (the source
updates it through an atomic Swap). -/
def formatHeader (l : XLogger) (out : Str) (t : GoTime) : Str × Bool :=
  if l.flag &&& Lreltime = 0 then (timestamp out t l.flag, l.relstart)
  else if l.relstart then (out ++ str "+" ++ durStr (t.abs - l.start), true)
  else (timestamp out t (l.flag ||| Ldate ||| Ltime), true)

/-- path.Base from the Go standard library, used by ofmt for short file
names: strip trailing slashes, then keep the part after the last slash. -/
def pathBase (p : Str) : Str :=
  if p = [] then str "." else
  let p := (p.reverse.dropWhile (fun c => c = '/')).reverse
  let p := (p.reverse.takeWhile (fun c => c != '/')).reverse
  if p = [] then str "/" else p

/-- Caller location token of ofmt: resolve the (file, line) pair that
runtime.Caller produced (none when the lookup failed) into the
parenthesised location token. -/
def fileLocTok (flag : Nat) (caller : Option (Str × Nat)) : Str :=
  let fl := match caller with
    | some fl => fl
    | none => (str "???", 0)
  let file := if flag &&& Lfullpath = 0 then pathBase fl.1 else fl.1
  str "(" ++ file ++ str ":" ++ natStr fl.2 ++ str ") "

/-- ofmt from logger.go. The wall clock read and the runtime.Caller lookup
are hoisted into the now and caller parameters; msg is the fmt.Appendf
result for the format string and its arguments. Returns the formatted
record and the updated relstart flag. -/
def ofmt (l : XLogger) (calldepth : Nat) (prio : Priority) (msg : Str)
    (now : GoTime) (caller : Option (Str × Nat)) : Str × Bool :=
  if msg.length = 0 then ([], l.relstart)
  else
    let hr :=
      if l.flag &&& lSyslog = 0 then
        let b0 := str "<" ++ intStr prio ++ str ">:"
        let br := formatHeader l b0 now
        (br.1 ++ str " ", br.2)
      else ([], l.relstart)
    let b := if l.flag &&& lPrefix ≠ 0 then hr.1 ++ l.pfx else hr.1
    let b := if calldepth > 0 ∧ l.flag &&& Lfileloc > 0 then b ++ fileLocTok l.flag caller else b
    let b := b ++ msg
    (if b.length > 0 ∧ b.getLast? ≠ some '\n' then b ++ [Char.ofNat 10] else b, hr.2)

/-- dprintf from logger.go writes a record directly to the destination,
bypassing the queue; the model returns the written record and the updated
relstart flag. -/
def dprintf (l : XLogger) (depth : Nat) (pr : Priority) (msg : Str)
    (now : GoTime) (caller : Option (Str × Nat)) : Str × Bool :=
  ofmt l (if depth > 0 then depth + 1 else depth) pr msg now caller

/-- newLogger from logger.go: decorate a non-empty prefix, default a
non-positive priority to LOG_WARN, build the instance and emit the startup
record through dprintf. Returns the logger and the startup record. -/
def newLogger (out : Dest) (prio : Priority) (pref : Str) (flag : Nat)
    (now : GoTime) : XLogger × Str :=
  let flag := if pref.length > 0 then flag ||| lPrefix else flag
  let pref := if pref.length > 0 then str "[" ++ pref ++ str "] " else pref
  let prio := if prio ≤ 0 then LOG_WARN else prio
  let l0 : XLogger := { prio := prio, pfx := pref, flag := flag, out := out, start := now.abs }
  let dr := dprintf l0 0 LOG_INFO
    (str "Logger at level " ++ prioStr prio ++ str " started.") now none
  ({ l0 with relstart := dr.2 }, dr.1)

/-- strings.LastIndex scan: the largest start index at which sub occurs in
s, or minus one when it does not occur. -/
def goLastIndexA (s sub : Str) : Nat → Int
  | 0 => if sub.isPrefixOf s then 0 else -1
  | i + 1 => if sub.isPrefixOf (s.drop (i + 1)) then ((i : Int) + 1) else goLastIndexA s sub i

/-- strings.LastIndex from the Go standard library. -/
def goLastIndex (s sub : Str) : Int := goLastIndexA s sub s.length

/-- barePrefix from logger.go. Go reads s[0] and would panic on an empty
string; every caller passes a stored non-empty decorated prefix, and the
model returns the empty string in that unreachable case. -/
def barePrefix (s : Str) : Str :=
  let s := if s.head? = some '[' then s.tail else s
  let i := goLastIndex s (str "] ")
  if i > 0 then s.take i.toNat else s

/-- The sub-logger constructor New of xLogger. -/
def XLogger.New (l : XLogger) (pref : Str) (prio : Priority) : XLogger :=
  let prio := if prio ≤ 0 then l.prio else prio
  let nl : XLogger :=
    { prio := prio, pfx := [], flag := l.flag ||| lSublog, out := l.out, start := l.start }
  if pref.length > 0 then
    if l.flag &&& lPrefix ≠ 0 then
      { nl with pfx := str "[" ++ barePrefix l.pfx ++ str "." ++ pref ++ str "] " }
    else
      { nl with pfx := str "[" ++ pref ++ str "] " }
  else nl

/-- Loggable of xLogger. -/
def XLogger.Loggable (l : XLogger) (p : Priority) : Bool :=
  decide (l.prio > LOG_NONE) && decide (p ≥ l.prio)

/-- Prefix accessor of xLogger. -/
def XLogger.Prefix (l : XLogger) : Str := l.pfx

/-- Prio accessor of xLogger. -/
def XLogger.Prio (l : XLogger) : Priority := l.prio

/-- The emptyLogger struct of nul.go. -/
structure emptyLogger where
  prio : Priority
  pfx : Str
  deriving DecidableEq, Repr

/-- newNullLogger from nul.go. -/
def newNullLogger (pref : Str) (prio : Priority) : emptyLogger :=
  { prio := prio, pfx := pref }

/-- Loggable of emptyLogger. -/
def emptyLogger.Loggable (e : emptyLogger) (p : Priority) : Bool :=
  decide (e.prio > LOG_NONE) && decide (p ≥ e.prio)

/-- Prefix accessor of emptyLogger. -/
def emptyLogger.Prefix (e : emptyLogger) : Str := e.pfx

/-- First statement of defaultFlag: a zero flag word defaults to
Lstdflag. -/
def dfStep1 (flag : Nat) : Nat := if flag = 0 then Lstdflag else flag

/-- Second statement of defaultFlag: relative time supersedes any date and
time stamp (Lmicroseconds is retained). -/
def dfStep2 (f1 : Nat) : Nat :=
  if f1 &&& Lreltime ≠ 0 then goClear f1 (Ldate ||| Ltime) else f1

/-- Third statement of defaultFlag: full path implies file location. -/
def dfStep3 (f2 : Nat) : Nat :=
  if 0 < f2 &&& Lfullpath then f2 ||| Lfileloc else f2

/-- defaultFlag from logger.go: the three statements above in source order,
then clear the internal bits lSyslog, lPrefix and lClose. -/
def defaultFlag (flag : Nat) : Nat :=
  goClear (dfStep3 (dfStep2 (dfStep1 flag))) (lSyslog ||| lPrefix ||| lClose)

/-- New from logger.go: note it normalizes the flags, then normalizes the
already-normalized word again when calling newLogger. -/
def New (out : Dest) (prio : Priority) (pref : Str) (flag : Nat)
    (now : GoTime) : XLogger × Str :=
  let flag := defaultFlag flag
  newLogger out prio pref (defaultFlag flag) now

/-- NewFilelog from logger.go: a file-backed logger that owns its
destination (lClose). Opening the file can fail on the host; the model
covers the successful open. -/
def NewFilelog (file : Str) (prio : Priority) (pref : Str) (flag : Nat)
    (now : GoTime) : XLogger × Str :=
  let p := newLogger .fileD prio pref (defaultFlag flag ||| lClose) now
  ({ p.1 with name := file }, p.2)

/-- NewSyslog from logger.go, for a successful syslog connection. -/
def NewSyslog (prio : Priority) (pref : Str) (flag : Nat)
    (now : GoTime) : XLogger × Str :=
  newLogger .syslogD prio pref (defaultFlag flag ||| lSyslog) now

/-- strings.ToUpper restricted to ASCII, which covers the symbolic
destination names NewLogger compares against. -/
def goToUpper (s : Str) : Str := s.map Char.toUpper

/-- Result of the NewLogger dispatcher: either the null logger or an
xLogger together with its startup record. -/
inductive LogDest
  | nullL (e : emptyLogger)
  | xL (l : XLogger) (startup : Str)
  deriving DecidableEq, Repr

/-- NewLogger from logger.go: dispatch on the upper-cased destination name;
any name that is not symbolic is treated as a file path, and the file
constructor is called with an empty prefix. -/
def NewLogger (name : Str) (prio : Priority) (pref : Str) (flag : Nat)
    (now : GoTime) : LogDest :=
  let flag := defaultFlag flag
  let u := goToUpper name
  if u = str "NONE" then .nullL (newNullLogger pref prio)
  else if u = str "SYSLOG" then
    let p := NewSyslog prio pref flag now
    .xL p.1 p.2
  else if u = str "STDOUT" then
    let p := New .stdout prio pref flag now
    .xL p.1 p.2
  else if u = str "STDERR" then
    let p := New .stderr prio pref flag now
    .xL p.1 p.2
  else
    let p := NewFilelog name prio [] flag now
    .xL p.1 p.2

/-- File contents as rotation sees them: a plain log file or the gzip
compression of a prior live-file content. -/
inductive FData
  | raw (s : Str)
  | gz (s : Str)
  deriving DecidableEq, Repr

/-- The directory holding the live log and its rotated generations, as an
association list from file name to contents. -/
abbrev FS := List (Str × FData)

def FS.lookup : FS → Str → Option FData
  | [], _ => none
  | e :: t, n => if e.1 = n then some e.2 else FS.lookup t n

def FS.ex (fs : FS) (n : Str) : Bool := (fs.lookup n).isSome

def FS.remove : FS → Str → FS
  | [], _ => []
  | e :: t, n => if e.1 = n then FS.remove t n else e :: FS.remove t n

def FS.set (fs : FS) (n : Str) (d : FData) : FS := (n, d) :: fs.remove n

def FS.rename (fs : FS) (o n : Str) : FS :=
  match fs.lookup o with
  | some d => (fs.remove o).set n d
  | none => fs

/-- File system operations a rotation step performs, in order. -/
inductive FsOp
  | removeF (n : Str)
  | renameF (o n : Str)
  | createF (n : Str)
  | writeGzF (n : Str) (content : Str)
  | truncLive
  | seekLive
  deriving DecidableEq, Repr

/-- Name of compressed generation i: fn.i.gz as in rotatefile. -/
def genName (fn : Str) (i : Nat) : Str := fn ++ str "." ++ natStr i ++ str ".gz"

/-- The shift loop of rotatefile: for the loop counter k+1 down to 1, if
generation k exists rename it to generation k+1; also records the rename
trace in order. -/
def rotateLoop (fs : FS) (fn : Str) : Nat → FS × List FsOp
  | 0 => (fs, [])
  | k + 1 =>
    if fs.ex (genName fn k) then
      let fs1 := fs.rename (genName fn k) (genName fn (k + 1))
      let r := rotateLoop fs1 fn k
      (r.1, .renameF (genName fn k) (genName fn (k + 1)) :: r.2)
    else rotateLoop fs fn k

/-- rotatefile from logger.go: delete the oldest generation mx-1 (a missing
file is tolerated), then shift the remaining generations upward from the
oldest to the newest. -/
def rotatefile (fs : FS) (fn : Str) (mx : Nat) : FS × List FsOp :=
  let old := genName fn (mx - 1)
  let fs1 := fs.remove old
  let r := rotateLoop fs1 fn (mx - 1)
  (r.1, .removeF old :: r.2)

/-- Partial progress of the rotatefile loop, for fault injection: stop
after j loop iterations. -/
def rotateLoopN (fs : FS) (fn : Str) : Nat → Nat → FS
  | _, 0 => fs
  | 0, _ + 1 => fs
  | k + 1, j + 1 =>
    if fs.ex (genName fn k) then
      rotateLoopN (fs.rename (genName fn k) (genName fn (k + 1))) fn k j
    else rotateLoopN fs fn k j

/-- rotatefile failing after j of its steps: j = 0 fails at or before the
initial delete, otherwise the delete and j-1 loop iterations are done. -/
def rotatefileSteps (fs : FS) (fn : Str) (mx j : Nat) : FS :=
  if j = 0 then fs
  else rotateLoopN (fs.remove (genName fn (mx - 1))) fn (mx - 1) (j - 1)

/-- Injected failures for each fallible step of rotateLog, in source order;
rotJ is the partial progress of a failing rotatefile call. -/
structure Faults where
  syncF : Bool := false
  seekF : Bool := false
  rotF : Bool := false
  rotJ : Nat := 0
  createF : Bool := false
  gzipNewF : Bool := false
  copyF : Bool := false
  gzipCloseF : Bool := false
  closeF : Bool := false
  renameF : Bool := false
  truncF : Bool := false
  seek2F : Bool := false
  deriving DecidableEq, Repr

def Faults.any (f : Faults) : Bool :=
  f.syncF || f.seekF || f.rotF || f.createF || f.gzipNewF || f.copyF ||
  f.gzipCloseF || f.closeF || f.renameF || f.truncF || f.seek2F

/-- Environment of one rotation: the random temp file name, the injected
faults, the clock reading and the caller frame seen by any Error records. -/
structure RotCtx where
  tmp : Str
  faults : Faults := {}
  now : GoTime
  caller : Option (Str × Nat) := none
  deriving DecidableEq, Repr

/-- A root logger with the world rotateLog touches: the directory, the live
file contents and read-write offset, whether the live handle is open, the
records enqueued on the channel by internal Error calls, and the supply of
rotation environments. -/
structure LState where
  lg : XLogger
  fs : FS := []
  live : Str := []
  liveOff : Nat := 0
  liveOpen : Bool := true
  queued : List Str := []
  rotCtxs : List RotCtx := []
  panicked : Bool := false
  deriving DecidableEq, Repr

/-- The Error method as the rotation failure path invokes it: gate on
Loggable(LOG_ERR), format through Output (call depth 2, so ofmt sees 3) and
enqueue the record on the shared channel. -/
def errorCall (s : LState) (msg : Str) (now : GoTime)
    (caller : Option (Str × Nat)) : LState :=
  if s.lg.Loggable LOG_ERR then
    let r := ofmt s.lg 3 LOG_ERR msg now caller
    { s with lg := { s.lg with relstart := r.2 }, queued := s.queued ++ [r.1] }
  else s

/-- The goto chain of rotateLog failures: fail1 closes the temp handle (a
host resource the model does not track), fail2 removes the temp file when
removeTmp is set, and fail closes the live handle, switches the destination
to stderr, logs the error and the fallback notice, and clears lClose. -/
def rotFail (s : LState) (ctx : RotCtx) (removeTmp : Bool) (errstr : Str) : LState :=
  let s := if removeTmp then { s with fs := s.fs.remove ctx.tmp } else s
  let s := { s with liveOpen := false, lg := { s.lg with out := .stderr } }
  let s := errorCall s errstr ctx.now ctx.caller
  let s := errorCall s (str "switching to STDERR for future logs ..") ctx.now ctx.caller
  { s with lg := { s.lg with flag := goClear s.lg.flag lClose } }

/-- rotateLog from logger.go. Go panics when the destination is not a file;
the model records that in panicked. The happy path follows the source: sync
and seek the live file, shift the generations, compress the live contents
from the current offset into a fresh temp file, close and atomically rename
it onto generation 0, truncate the live file and seek to its start. The
error strings built by errf are abbreviated per step (fmt.Sprintf is
external). Returns the state and the ordered trace of file operations. -/
def rotateLog (s : LState) (ctx : RotCtx) : LState × List FsOp :=
  if s.lg.out ≠ .fileD then ({ s with panicked := true }, [])
  else
    let f := ctx.faults
    if f.syncF then (rotFail s ctx false (str "flush failed"), [])
    else if f.seekF then (rotFail s ctx false (str "seek0 to start rotation failed"), [])
    else
      let s := { s with liveOff := 0 }
      if f.rotF then
        (rotFail { s with fs := rotatefileSteps s.fs s.lg.name s.lg.rot_n f.rotJ } ctx
          false (str "rotate failed"), [])
      else
        let r1 := rotatefile s.fs s.lg.name s.lg.rot_n
        let s := { s with fs := r1.1 }
        let gz := genName s.lg.name 0
        if f.createF then (rotFail s ctx false (str "create failed"), r1.2)
        else
          let s := { s with fs := s.fs.set ctx.tmp (.raw []) }
          let ops := r1.2 ++ [.createF ctx.tmp]
          if f.gzipNewF then (rotFail s ctx true (str "gzip failed"), ops)
          else if f.copyF then (rotFail s ctx true (str "gzip copy failed"), ops)
          else
            let content := s.live.drop s.liveOff
            let s2 := { s with fs := s.fs.set ctx.tmp (.gz content), liveOff := s.live.length }
            let ops := ops ++ [.writeGzF ctx.tmp content]
            if f.gzipCloseF then (rotFail s2 ctx true (str "gzip close failed"), ops)
            else if f.closeF then (rotFail s2 ctx true (str "close failed"), ops)
            else if f.renameF then (rotFail s2 ctx true (str "rename failed"), ops)
            else
              let s3 := { s2 with fs := s2.fs.rename ctx.tmp gz }
              let ops := ops ++ [.renameF ctx.tmp gz]
              if f.truncF then (rotFail s3 ctx false (str "truncate failed"), ops)
              else
                let s4 := { s3 with live := [] }
                let ops := ops ++ [.truncLive]
                if f.seek2F then (rotFail s4 ctx false (str "seek0 failed"), ops)
                else ({ s4 with liveOff := 0 }, ops ++ [.seekLive])

/-- Claim-side generation shift for the refinement proof of the rotation
trace: walk the given index list, renaming generation i to generation i+1
when generation i exists in the evolving file system. -/
def specShift (fs : FS) (fn : Str) : List Nat → FS × List FsOp
  | [] => (fs, [])
  | i :: rest =>
    if fs.ex (genName fn i) then
      let fs1 := fs.rename (genName fn i) (genName fn (i + 1))
      let r := specShift fs1 fn rest
      (r.1, .renameF (genName fn i) (genName fn (i + 1)) :: r.2)
    else specShift fs fn rest

/-- Claim-side index order: keep-2 down to 0. -/
def specShiftIdx (keep : Nat) : List Nat := (List.range (keep - 1)).reverse

/-- A queue event as qrunner dequeues it: ty 0 is a log write carrying a
formatted record, ty 1 a rotation timer expiry. -/
structure Qev where
  ty : Nat
  buf : Str := []
  deriving DecidableEq, Repr

def defGoTime : GoTime := ⟨0, 0, 0, 0, 0, 0, 0, 0⟩

/-- One iteration of the qrunner writer goroutine for a dequeued event.
Returns the new state and the Write calls made on the destination, in
order, each element one contiguous Write. A timer event with rotation
enabled runs rotateLog, resets relstart so the next record carries a full
timestamp, and writes the completion record directly; its environment is
drawn from the rotCtxs supply. An unknown event type is reported through
dprintf, as in the source. -/
def qstep (s : LState) (e : Qev) : LState × List Str :=
  if e.ty = 0 then (s, [e.buf])
  else if e.ty = 1 then
    if s.lg.flag &&& lRotate ≠ 0 then
      let ctx := s.rotCtxs.headD ⟨[], {}, defGoTime, none⟩
      let s1 := { s with rotCtxs := s.rotCtxs.tail }
      let r := rotateLog s1 ctx
      let s2 := { r.1 with lg := { r.1.lg with relstart := false } }
      let d := dprintf s2.lg 0 LOG_INFO
        (str "Log rotation complete. Next rotate in +24 hours.") ctx.now none
      ({ s2 with lg := { s2.lg with relstart := d.2 } }, [d.1])
    else (s, [])
  else
    let d := dprintf s.lg 0 LOG_ERR
      (str "logger: unknown event type " ++ natStr e.ty ++ str " in qrunner")
      defGoTime none
    ({ s with lg := { s.lg with relstart := d.2 } }, [d.1])

/-- The qrunner drain loop over the FIFO channel contents: process events
in order, concatenating the Write calls each one makes. -/
def qrun (s : LState) : List Qev → LState × List Str
  | [] => (s, [])
  | e :: es =>
    let r1 := qstep s e
    let r2 := qrun r1.1 es
    (r2.1, r1.2 ++ r2.2)

/-- The close-relevant pieces of a logger: its flags and priority, the
shared channel state (closed flag, whether sends still land, whether the
writer goroutine has drained and exited), whether the owned file handle is
open, and the records Close writes directly. -/
structure CLogger where
  flag : Nat
  prio : Priority := LOG_WARN
  chClosed : Bool := false
  chOpenForSend : Bool := true
  drained : Bool := false
  fdOpen : Bool := true
  wrote : List Str := []
  deriving DecidableEq, Repr

/-- Close from logger.go: a sub-logger returns nil immediately; the first
root close wins the atomic Swap, closes the channel, waits for the writer
goroutine to drain, writes the final record directly through dprintf (its
header formatting is abstracted to the message), and closes an owned file
destination; every later call loses the Swap and returns nil. fd.Close of a
healthy file resolves to a nil error in the model. -/
def closeLogger (l : CLogger) : CLogger × Option Str :=
  if l.flag &&& lSublog ≠ 0 then (l, none)
  else if l.chClosed then (l, none)
  else
    let l := { l with chClosed := true, chOpenForSend := false, drained := true }
    let l := { l with wrote :=
      l.wrote ++ [str "xLogger at level " ++ prioStr l.prio ++ str " closed."] }
    if l.flag &&& lClose ≠ 0 then ({ l with fdOpen := false }, none)
    else (l, none)

/-- Output from logger.go: format through ofmt, bumping a positive caller
depth by one for the extra stack frame. Returns the record it enqueues. -/
def Output (l : XLogger) (calldepth : Nat) (prio : Priority) (msg : Str)
    (now : GoTime) (caller : Option (Str × Nat)) : Str × Bool :=
  ofmt l (if calldepth > 0 then calldepth + 1 else calldepth) prio msg now caller

/-- Info from logger.go: gate on Loggable(LOG_INFO) and emit through
Output with call depth 0. Returns the enqueued record, none if filtered. -/
def InfoRec (l : XLogger) (msg : Str) (now : GoTime)
    (caller : Option (Str × Nat)) : Option Str :=
  if l.Loggable LOG_INFO then some (Output l 0 LOG_INFO msg now caller).1 else none

/-- Warn from logger.go: Loggable(LOG_WARN) gate, Output with depth 0. -/
def WarnRec (l : XLogger) (msg : Str) (now : GoTime)
    (caller : Option (Str × Nat)) : Option Str :=
  if l.Loggable LOG_WARN then some (Output l 0 LOG_WARN msg now caller).1 else none

/-- Debug from logger.go: Loggable(LOG_DEBUG) gate, Output with depth 2. -/
def DebugRec (l : XLogger) (msg : Str) (now : GoTime)
    (caller : Option (Str × Nat)) : Option Str :=
  if l.Loggable LOG_DEBUG then some (Output l 2 LOG_DEBUG msg now caller).1 else none

/-- Error from logger.go: Loggable(LOG_ERR) gate, Output with depth 2. -/
def ErrorRec (l : XLogger) (msg : Str) (now : GoTime)
    (caller : Option (Str × Nat)) : Option Str :=
  if l.Loggable LOG_ERR then some (Output l 2 LOG_ERR msg now caller).1 else none

/-- Crit from logger.go: Loggable(LOG_CRIT) gate, Output with depth 2. -/
def CritRec (l : XLogger) (msg : Str) (now : GoTime)
    (caller : Option (Str × Nat)) : Option Str :=
  if l.Loggable LOG_CRIT then some (Output l 2 LOG_CRIT msg now caller).1 else none

/-- Test for a relative-timestamp header: it starts with a plus sign. -/
def isRelHdr (h : Str) : Bool := h.head? == some '+'

/-- Headers of consecutively formatted records: apply formatHeader to each
clock reading in turn, threading the relstart flag as the source does. -/
def headerRun (l : XLogger) : List GoTime → List Str
  | [] => []
  | t :: ts =>
    let r := formatHeader l [] t
    r.1 :: headerRun { l with relstart := r.2 } ts

/- Concrete fixtures used by the witness theorems. -/

/-- A file-backed root logger with rotation enabled, retention 3. -/
def cLg : XLogger :=
  { prio := LOG_INFO, pfx := [], flag := Lstdflag ||| lClose ||| lRotate,
    out := .fileD, name := str "app.log", rot_n := 3 }

/-- A directory holding the three compressed generations of cLg. -/
def cFs : FS :=
  [(genName (str "app.log") 0, .gz (str "g0")),
   (genName (str "app.log") 1, .gz (str "g1")),
   (genName (str "app.log") 2, .gz (str "g2"))]

/-- The rotation world of cLg with live contents LIVE. -/
def cSt : LState := { lg := cLg, fs := cFs, live := str "LIVE" }

/-- A fault-free rotation environment with a fresh temp name. -/
def cCtxOk : RotCtx := { tmp := str "app.log.aaff", now := defGoTime }

/-- A rotation environment whose gzip copy step fails. -/
def cCtxFail : RotCtx :=
  { tmp := str "app.log.aaff", faults := { copyF := true }, now := defGoTime }

/-- A relative-time logger fixture. -/
def cRelLg : XLogger :=
  { prio := LOG_INFO, pfx := [], flag := Lreltime, out := .stdout, start := 5 }

/-- Two clock readings for the relative-time fixture. -/
def cT1 : GoTime := ⟨2024, 1, 2, 3, 4, 5, 0, 10⟩

def cT2 : GoTime := ⟨2024, 1, 2, 3, 4, 6, 0, 20⟩

/-- A rotating file-backed relative-time world for the timer-event
fixture. -/
def cRelSt : LState :=
  { lg := { cLg with flag := Lreltime ||| lClose ||| lRotate },
    fs := cFs, live := str "LIVE", rotCtxs := [cCtxOk] }

/-- A file-location logger fixture at the most verbose priority. -/
def cFileLg : XLogger :=
  { prio := LOG_DEBUG, pfx := [], flag := Lstdflag ||| Lfileloc, out := .stdout }

/- Theorems. -/

/-- C1: for every logger instance with configured priority P and every
attempted priority L, Loggable(L) returns true iff P > LOG_NONE and L >= P;
the formula holds for the standard xLogger and for the null logger, and
the NewLogger dispatcher returns exactly that null logger for the
destination name NONE (compared case-insensitively). -/
theorem c1_loggable :
    (∀ (l : XLogger) (p : Priority),
        l.Loggable p = true ↔ (LOG_NONE < l.prio ∧ l.prio ≤ p)) ∧
    (∀ (e : emptyLogger) (p : Priority),
        e.Loggable p = true ↔ (LOG_NONE < e.prio ∧ e.prio ≤ p)) ∧
    (∀ (pf : Str) (pr : Priority) (fl : Nat) (t : GoTime),
        NewLogger (str "none") pr pf fl t = .nullL (newNullLogger pf pr)) := by
  refine ⟨?_, ?_, ?_⟩
  · intro l p
    simp [XLogger.Loggable, ge_iff_le, and_comm]
  · intro e p
    simp [emptyLogger.Loggable, ge_iff_le, and_comm]
  · intro pf pr fl t
    have h : goToUpper (str "none") = str "NONE" := by decide
    simp [NewLogger, h]

/-- C10: a destination name that is not one of NONE, SYSLOG, STDOUT,
STDERR after upper-casing is treated as a file path, but NewLogger passes
an empty prefix to NewFilelog, so the supplied prefix is discarded and the
resulting logger's Prefix() is empty; the four symbolic destinations keep
the supplied prefix (the null logger stores it bare, the stream and syslog
loggers store its decorated form). -/
theorem c10_newlogger_pfx :
    (∀ (name pf : Str) (pr : Priority) (fl : Nat) (t : GoTime),
        goToUpper name ≠ str "NONE" → goToUpper name ≠ str "SYSLOG" →
        goToUpper name ≠ str "STDOUT" → goToUpper name ≠ str "STDERR" →
        ∃ l r, NewLogger name pr pf fl t = .xL l r ∧ l.Prefix = []) ∧
    (∀ (name pf : Str) (pr : Priority) (fl : Nat) (t : GoTime),
        goToUpper name = str "NONE" →
        ∃ e, NewLogger name pr pf fl t = .nullL e ∧ e.Prefix = pf) ∧
    (∀ (name pf : Str) (pr : Priority) (fl : Nat) (t : GoTime),
        goToUpper name = str "SYSLOG" ∨ goToUpper name = str "STDOUT" ∨
        goToUpper name = str "STDERR" →
        ∃ l r, NewLogger name pr pf fl t = .xL l r ∧
          l.Prefix = (if pf.length > 0 then str "[" ++ pf ++ str "] " else pf)) := by
  refine ⟨?_, ?_, ?_⟩
  · intro name pf pr fl t h1 h2 h3 h4
    simp only [NewLogger]
    rw [if_neg h1, if_neg h2, if_neg h3, if_neg h4]
    exact ⟨_, _, rfl, by simp [NewFilelog, newLogger, XLogger.Prefix]⟩
  · intro name pf pr fl t h1
    simp only [NewLogger]
    rw [if_pos h1]
    exact ⟨_, rfl, rfl⟩
  · intro name pf pr fl t h
    rcases h with h | h | h
    · have hn : goToUpper name ≠ str "NONE" := by rw [h]; decide
      simp only [NewLogger]
      rw [if_neg hn, if_pos h]
      refine ⟨_, _, rfl, ?_⟩
      by_cases hp : pf.length > 0 <;>
        simp [NewSyslog, newLogger, XLogger.Prefix, hp]
    · have hn : goToUpper name ≠ str "NONE" := by rw [h]; decide
      have hs : goToUpper name ≠ str "SYSLOG" := by rw [h]; decide
      simp only [NewLogger]
      rw [if_neg hn, if_neg hs, if_pos h]
      refine ⟨_, _, rfl, ?_⟩
      by_cases hp : pf.length > 0 <;>
        simp [New, newLogger, XLogger.Prefix, hp]
    · have hn : goToUpper name ≠ str "NONE" := by rw [h]; decide
      have hs : goToUpper name ≠ str "SYSLOG" := by rw [h]; decide
      have ho : goToUpper name ≠ str "STDOUT" := by rw [h]; decide
      simp only [NewLogger]
      rw [if_neg hn, if_neg hs, if_neg ho, if_pos h]
      refine ⟨_, _, rfl, ?_⟩
      by_cases hp : pf.length > 0 <;>
        simp [New, newLogger, XLogger.Prefix, hp]

/-- Witness for C10 at concrete destinations: a file path discards the
supplied prefix, the symbolic names keep it, case-insensitively. -/
theorem c10_witness :
    (∃ l r, NewLogger (str "/var/log/app.log") 2 (str "svc") 0 defGoTime
        = .xL l r ∧ l.Prefix = []) ∧
    (∃ e, NewLogger (str "None") 2 (str "svc") 0 defGoTime
        = .nullL e ∧ e.Prefix = str "svc") ∧
    (∃ l r, NewLogger (str "stdout") 2 (str "svc") 0 defGoTime = .xL l r ∧
        l.Prefix = (if (str "svc").length > 0
          then str "[" ++ str "svc" ++ str "] " else str "svc")) :=
  ⟨c10_newlogger_pfx.1 _ _ _ _ _ (by decide) (by decide) (by decide) (by decide),
   c10_newlogger_pfx.2.1 _ _ _ _ _ (by decide),
   c10_newlogger_pfx.2.2 _ _ _ _ _ (Or.inr (Or.inl (by decide)))⟩

theorem goLastIndexA_wrap (p : Str) :
    goLastIndexA (p ++ [']', ' ']) [']', ' '] (p.length + 1 + 1) = (p.length : Int) := by
  have h2 : (p ++ [']', ' ']).drop (p.length + 1 + 1) = [] := by
    simp
  have h1 : (p ++ [']', ' ']).drop (p.length + 1) = [' '] := by
    simp
  have h0 : (p ++ [']', ' ']).drop p.length = [']', ' '] := by
    simp
  rw [goLastIndexA, h2]
  norm_num [List.isPrefixOf]
  rw [goLastIndexA, h1]
  norm_num [List.isPrefixOf]
  rcases hp : p.length with _ | m
  · have hpe : p = [] := List.length_eq_zero.mp hp
    subst hpe
    decide
  · rw [hp] at h0
    rw [goLastIndexA, h0]
    norm_num [List.isPrefixOf]

theorem barePrefix_wrap (p : Str) (hp : p ≠ []) :
    barePrefix (str "[" ++ p ++ str "] ") = p := by
  have hx : str "[" ++ p ++ str "] " = '[' :: (p ++ [']', ' ']) := by simp [str]
  rw [hx]
  have hlen : ('[' :: (p ++ [']', ' '])).tail.length = p.length + 1 + 1 := by simp
  have hgl : goLastIndex (p ++ [']', ' ']) (str "] ") = (p.length : Int) := by
    have hs : str "] " = [']', ' '] := rfl
    rw [goLastIndex, hs]
    have hl : (p ++ [']', ' ']).length = p.length + 1 + 1 := by simp
    rw [hl]
    exact goLastIndexA_wrap p
  have hpos : (0 : Int) < (p.length : Int) := by
    have : 0 < p.length := List.length_pos.mpr hp
    exact_mod_cast this
  simp only [barePrefix, List.head?_cons, if_pos rfl, List.tail_cons, if_true]
  rw [hgl, if_pos hpos]
  simp [List.take_left]

theorem newLogger_pfx (out : Dest) (pr : Priority) (p : Str) (fl : Nat)
    (t : GoTime) (hp : p ≠ []) :
    (newLogger out pr p fl t).1.pfx = str "[" ++ p ++ str "] " ∧
    (newLogger out pr p fl t).1.flag = fl ||| lPrefix := by
  have h : p.length > 0 := List.length_pos.mpr hp
  simp [newLogger, h]

theorem lor_lPrefix_and_ne (a : Nat) : (a ||| lPrefix) &&& lPrefix ≠ 0 := by
  intro h
  have htb : Nat.testBit 128 7 = true := by decide
  have hb := congrArg (fun x => Nat.testBit x 7) h
  simp [Nat.testBit_land, Nat.testBit_lor, lPrefix, Nat.zero_testBit, htb] at hb

/-- C2 counterexample: for a parent created with prefix svc, a sub-logger
created with the empty child prefix argument has the empty prefix; it does
not inherit the parent bare prefix svc as the claim states. -/
theorem c2_counterexample :
    ((newLogger .stdout 2 (str "svc") 0 defGoTime).1.New [] 2).pfx = [] ∧
    barePrefix (newLogger .stdout 2 (str "svc") 0 defGoTime).1.pfx = str "svc" ∧
    ((newLogger .stdout 2 (str "svc") 0 defGoTime).1.New [] 2).pfx ≠ str "svc" := by
  decide

/-- C2 amended: for a non-empty child prefix c, the sub-logger prefix is
the composed decorated form when the parent carries a prefix and the plain
decorated form when it does not; for an empty child prefix argument the
sub-logger prefix is the empty string (the parent prefix is not
inherited). -/
theorem c2_amended :
    ∀ (out : Dest) (pprio cprio : Priority) (p c : Str) (fl : Nat) (t : GoTime),
      p ≠ [] → c ≠ [] →
      (((newLogger out pprio p fl t).1.New c cprio).pfx
          = str "[" ++ p ++ str "." ++ c ++ str "] ") ∧
      (∀ l : XLogger, l.flag &&& lPrefix = 0 →
          (l.New c cprio).pfx = str "[" ++ c ++ str "] ") ∧
      (((newLogger out pprio p fl t).1.New [] cprio).pfx = []) := by
  intro out pprio cprio p c fl t hp hc
  obtain ⟨hpfx, hflag⟩ := newLogger_pfx out pprio p fl t hp
  have hcl : c.length > 0 := List.length_pos.mpr hc
  refine ⟨?_, ?_, ?_⟩
  · have hlp : (newLogger out pprio p fl t).1.flag &&& lPrefix ≠ 0 := by
      rw [hflag]; exact lor_lPrefix_and_ne fl
    have hbw : barePrefix ('[' :: (p ++ [']', ' '])) = p := by
      have hb := barePrefix_wrap p hp
      simpa [str] using hb
    simp [XLogger.New, hcl, hlp, hpfx, hbw, str]
  · intro l hl
    simp [XLogger.New, hcl, hl]
  · simp [XLogger.New]

/-- Witness for C2 amended at parent prefix svc and child prefix db. -/
theorem c2_amended_witness :
    ((newLogger .stdout 2 (str "svc") 0 defGoTime).1.New (str "db") 2).pfx
      = str "[" ++ str "svc" ++ str "." ++ str "db" ++ str "] " :=
  (c2_amended .stdout 2 2 (str "svc") (str "db") 0 defGoTime
    (by decide) (by decide)).1

theorem testBit_goClear (a m i : Nat) :
    (goClear a m).testBit i = (a.testBit i && !(m.testBit i)) := by
  rw [goClear, Nat.testBit_xor, Nat.testBit_land]
  cases a.testBit i <;> cases m.testBit i <;> rfl

theorem ldiff_and_self (a b : Nat) : goClear a b &&& b = 0 := by
  apply Nat.eq_of_testBit_eq
  intro i
  rw [Nat.testBit_land, testBit_goClear, Nat.zero_testBit]
  cases hb : b.testBit i <;> simp [hb]

theorem ldiff_eq_self (a b : Nat) (h : a &&& b = 0) : goClear a b = a := by
  apply Nat.eq_of_testBit_eq
  intro i
  have hi := congrArg (fun x => Nat.testBit x i) h
  simp only [Nat.testBit_land, Nat.zero_testBit] at hi
  rw [testBit_goClear]
  cases ha : a.testBit i
  · simp [ha]
  · cases hb : b.testBit i
    · simp [ha, hb]
    · rw [ha, hb] at hi
      simp at hi

theorem land_ldiff_disj (x m c : Nat) (h : m &&& c = 0) :
    goClear x m &&& c = x &&& c := by
  apply Nat.eq_of_testBit_eq
  intro i
  have hi := congrArg (fun y => Nat.testBit y i) h
  simp only [Nat.testBit_land, Nat.zero_testBit] at hi
  rw [Nat.testBit_land, testBit_goClear, Nat.testBit_land]
  cases hc : c.testBit i
  · simp [hc]
  · cases hm : m.testBit i
    · simp [hc, hm]
    · rw [hm, hc] at hi
      simp at hi

theorem lor_land_distrib (a b c : Nat) : (a ||| b) &&& c = (a &&& c) ||| (b &&& c) := by
  apply Nat.eq_of_testBit_eq
  intro i
  rw [Nat.testBit_land, Nat.testBit_lor, Nat.testBit_lor, Nat.testBit_land,
    Nat.testBit_land]
  cases a.testBit i <;> cases b.testBit i <;> cases c.testBit i <;> rfl

theorem land_lor_absorb (x b : Nat) : (x &&& b) ||| b = b := by
  apply Nat.eq_of_testBit_eq
  intro i
  rw [Nat.testBit_lor, Nat.testBit_land]
  cases hb : b.testBit i <;> simp [hb]

theorem lor_eq_self_of_land (a b : Nat) (h : a &&& b = b) : a ||| b = a := by
  apply Nat.eq_of_testBit_eq
  intro i
  have hi := congrArg (fun y => Nat.testBit y i) h
  simp only [Nat.testBit_land] at hi
  rw [Nat.testBit_lor]
  cases hb : b.testBit i
  · simp [hb]
  · rw [hb] at hi
    simp at hi
    simp [hb, hi]

theorem defaultFlag_and_internal (f : Nat) :
    defaultFlag f &&& (lSyslog ||| lPrefix ||| lClose) = 0 := by
  rw [defaultFlag]
  exact ldiff_and_self _ _

theorem defaultFlag_rel (f : Nat) (h : defaultFlag f &&& Lreltime ≠ 0) :
    defaultFlag f &&& (Ldate ||| Ltime) = 0 := by
  rw [defaultFlag] at h ⊢
  set x := dfStep1 f with hx
  rw [dfStep2] at h ⊢
  by_cases c1 : x &&& Lreltime ≠ 0
  · rw [if_pos c1] at h ⊢
    rw [dfStep3] at h ⊢
    set y := goClear x (Ldate ||| Ltime) with hy
    by_cases c2 : 0 < y &&& Lfullpath
    · rw [if_pos c2]
      rw [land_ldiff_disj _ _ _
        (by decide : (lSyslog ||| lPrefix ||| lClose) &&& (Ldate ||| Ltime) = 0)]
      rw [lor_land_distrib,
        (by decide : Lfileloc &&& (Ldate ||| Ltime) = 0), Nat.or_zero, hy]
      exact ldiff_and_self _ _
    · rw [if_neg c2]
      rw [land_ldiff_disj _ _ _
        (by decide : (lSyslog ||| lPrefix ||| lClose) &&& (Ldate ||| Ltime) = 0), hy]
      exact ldiff_and_self _ _
  · exfalso
    rw [if_neg c1] at h
    rw [dfStep3] at h
    by_cases c2 : 0 < x &&& Lfullpath
    · rw [if_pos c2,
        land_ldiff_disj _ _ _
          (by decide : (lSyslog ||| lPrefix ||| lClose) &&& Lreltime = 0),
        lor_land_distrib, (by decide : Lfileloc &&& Lreltime = 0), Nat.or_zero] at h
      exact c1 h
    · rw [if_neg c2,
        land_ldiff_disj _ _ _
          (by decide : (lSyslog ||| lPrefix ||| lClose) &&& Lreltime = 0)] at h
      exact c1 h

theorem defaultFlag_full (f : Nat) (h : 0 < defaultFlag f &&& Lfullpath) :
    defaultFlag f &&& Lfileloc = Lfileloc := by
  rw [defaultFlag] at h ⊢
  set x := dfStep2 (dfStep1 f) with hx
  rw [dfStep3] at h ⊢
  by_cases c2 : 0 < x &&& Lfullpath
  · rw [if_pos c2] at h ⊢
    rw [land_ldiff_disj _ _ _
      (by decide : (lSyslog ||| lPrefix ||| lClose) &&& Lfileloc = 0),
      lor_land_distrib, (by decide : Lfileloc &&& Lfileloc = Lfileloc)]
    exact land_lor_absorb _ _
  · exfalso
    rw [if_neg c2,
      land_ldiff_disj _ _ _
        (by decide : (lSyslog ||| lPrefix ||| lClose) &&& Lfullpath = 0)] at h
    exact c2 h

/-- C9 counterexample: defaultFlag is not idempotent at the flag word
lSyslog (64): one application yields 0 and a second application turns 0
into Lstdflag, so the double application in the New constructor path is not
an identity there. -/
theorem c9_counterexample :
    defaultFlag (defaultFlag lSyslog) ≠ defaultFlag lSyslog ∧
    defaultFlag lSyslog = 0 ∧ defaultFlag (defaultFlag lSyslog) = Lstdflag := by
  decide

/-- C9 amended: defaultFlag is idempotent at every flag word whose
normalization is non-zero; only a non-zero word built purely from the
cleared internal bits lSyslog, lPrefix, lClose normalizes to 0, and there a
second application yields Lstdflag instead, so the double application in
New is an identity exactly on flags with a non-zero normal form. -/
theorem c9_amended (f : Nat) (h : defaultFlag f ≠ 0) :
    defaultFlag (defaultFlag f) = defaultFlag f := by
  have hint := defaultFlag_and_internal f
  have hrel := defaultFlag_rel f
  have hfull := defaultFlag_full f
  set g := defaultFlag f with hg
  rw [defaultFlag, dfStep1, if_neg h, dfStep2]
  by_cases c1 : g &&& Lreltime ≠ 0
  · rw [if_pos c1, ldiff_eq_self _ _ (hrel c1), dfStep3]
    by_cases c2 : 0 < g &&& Lfullpath
    · rw [if_pos c2, lor_eq_self_of_land _ _ (hfull c2), ldiff_eq_self _ _ hint]
    · rw [if_neg c2, ldiff_eq_self _ _ hint]
  · rw [if_neg c1, dfStep3]
    by_cases c2 : 0 < g &&& Lfullpath
    · rw [if_pos c2, lor_eq_self_of_land _ _ (hfull c2), ldiff_eq_self _ _ hint]
    · rw [if_neg c2, ldiff_eq_self _ _ hint]

/-- Witness for C9 amended at the public flag word Lfileloc. -/
theorem c9_amended_witness :
    defaultFlag Lfileloc ≠ 0 ∧
    defaultFlag (defaultFlag Lfileloc) = defaultFlag Lfileloc :=
  ⟨by decide, c9_amended Lfileloc (by decide)⟩

theorem rotateLoop_eq_specShift (fn : Str) :
    ∀ (k : Nat) (fs : FS),
      rotateLoop fs fn k = specShift fs fn (List.range k).reverse := by
  intro k
  induction k with
  | zero => intro fs; rfl
  | succ n ih =>
    intro fs
    rw [List.range_succ, List.reverse_append, List.reverse_singleton,
      List.singleton_append]
    rw [rotateLoop, specShift]
    by_cases h : fs.ex (genName fn n)
    · simp only [if_pos h]
      rw [ih]
    · simp only [if_neg h]
      exact ih fs

/-- C3: a fault-free rotation step on a file-backed logger performs, in
order: delete generation keep-1; the claim-side shift renaming generation i
to i+1 for i from keep-2 down to 0, skipping indices whose file does not
exist; create the fresh temp file; compress the prior live contents into
it; atomically rename it to generation 0; truncate the live file; seek to
offset 0. The live file ends empty at offset 0. -/
theorem c3_rotation :
    ∀ (s : LState) (ctx : RotCtx),
      s.lg.out = .fileD → ctx.faults = {} → 1 ≤ s.lg.rot_n →
      (rotateLog s ctx).2 =
        .removeF (genName s.lg.name (s.lg.rot_n - 1)) ::
          ((specShift (s.fs.remove (genName s.lg.name (s.lg.rot_n - 1))) s.lg.name
              (specShiftIdx s.lg.rot_n)).2
            ++ [.createF ctx.tmp, .writeGzF ctx.tmp s.live,
                .renameF ctx.tmp (genName s.lg.name 0), .truncLive, .seekLive]) ∧
      (rotateLog s ctx).1.live = [] ∧ (rotateLog s ctx).1.liveOff = 0 := by
  intro s ctx hout hf hk
  have hnn : ¬s.lg.out ≠ Dest.fileD := by rw [hout]; simp
  rw [rotateLog, if_neg hnn, hf]
  simp only [rotatefile, specShiftIdx, rotateLoop_eq_specShift]
  simp

/-- Witness for C3 on the concrete world: retention 3, generations 0, 1, 2
present, live contents LIVE. -/
theorem c3_witness :
    cSt.lg.out = .fileD ∧ cCtxOk.faults = {} ∧ 1 ≤ cSt.lg.rot_n ∧
    ((rotateLog cSt cCtxOk).2 =
      .removeF (genName cSt.lg.name (cSt.lg.rot_n - 1)) ::
        ((specShift (cSt.fs.remove (genName cSt.lg.name (cSt.lg.rot_n - 1)))
            cSt.lg.name (specShiftIdx cSt.lg.rot_n)).2
          ++ [.createF cCtxOk.tmp, .writeGzF cCtxOk.tmp cSt.live,
              .renameF cCtxOk.tmp (genName cSt.lg.name 0), .truncLive, .seekLive]) ∧
      (rotateLog cSt cCtxOk).1.live = [] ∧ (rotateLog cSt cCtxOk).1.liveOff = 0) :=
  ⟨rfl, rfl, by decide, c3_rotation cSt cCtxOk rfl rfl (by decide)⟩

theorem FS.lookup_remove (fs : FS) (n m : Str) :
    (fs.remove n).lookup m = if m = n then none else fs.lookup m := by
  induction fs with
  | nil => by_cases h : m = n <;> simp [FS.remove, FS.lookup, h]
  | cons e t ih =>
    by_cases h1 : e.1 = n
    · have hre : FS.remove (e :: t) n = FS.remove t n := by simp [FS.remove, h1]
      rw [hre, ih]
      by_cases h2 : m = n
      · simp [h2]
      · have he : e.1 ≠ m := fun hh => h2 (hh.symm.trans h1)
        simp [FS.lookup, h2, he]
    · have hre : FS.remove (e :: t) n = e :: FS.remove t n := by
        simp [FS.remove, h1]
      rw [hre]
      by_cases h3 : e.1 = m
      · have h2 : ¬m = n := fun hh => h1 (h3.trans hh)
        simp [FS.lookup, h3, h2]
      · simp [FS.lookup, h3, ih]

theorem FS.ex_remove (fs : FS) (n m : Str) :
    (fs.remove n).ex m = (decide (m ≠ n) && fs.ex m) := by
  rw [FS.ex, FS.lookup_remove]
  by_cases h : m = n <;> simp [h, FS.ex]

theorem FS.ex_set (fs : FS) (n : Str) (d : FData) (m : Str) :
    (fs.set n d).ex m = (decide (m = n) || fs.ex m) := by
  by_cases h : m = n
  · simp [FS.set, FS.ex, FS.lookup, h]
  · have h2 : ¬n = m := fun hh => h hh.symm
    simp [FS.set, FS.ex, FS.lookup, h, h2]
    rw [show (FS.remove fs n).lookup m = _ from FS.lookup_remove fs n m]
    simp [h, FS.ex]

theorem FS.ex_rename_ne (fs : FS) (o n m : Str) (h1 : m ≠ o) (h2 : m ≠ n) :
    (fs.rename o n).ex m = fs.ex m := by
  rw [FS.rename]
  cases hlo : fs.lookup o with
  | none => rfl
  | some d =>
    rw [FS.ex_set]
    simp [h2]
    rw [FS.ex_remove]
    simp [h1]

theorem FS.ex_rename_src (fs : FS) (o n : Str) (h : o ≠ n) :
    (fs.rename o n).ex o = false := by
  rw [FS.rename]
  cases hlo : fs.lookup o with
  | none => simp [FS.ex, hlo]
  | some d =>
    rw [FS.ex_set]
    simp [h]
    rw [FS.ex_remove]
    simp

theorem rotateLoop_ex_preserve (fn m : Str) :
    ∀ (k : Nat) (fs : FS), (∀ i, i ≤ k → m ≠ genName fn i) →
      fs.ex m = false → ((rotateLoop fs fn k).1.ex m = false) := by
  intro k
  induction k with
  | zero => intro fs _ hfs; exact hfs
  | succ n ih =>
    intro fs hb hfs
    rw [rotateLoop]
    by_cases h : fs.ex (genName fn n)
    · simp only [if_pos h]
      refine ih _ (fun i hi => hb i (by omega)) ?_
      rw [FS.ex_rename_ne _ _ _ _ (hb n (by omega)) (hb (n + 1) (by omega))]
      exact hfs
    · simp only [if_neg h]
      exact ih fs (fun i hi => hb i (by omega)) hfs

theorem rotateLoopN_ex_preserve (fn m : Str) :
    ∀ (k : Nat), (∀ i, i ≤ k → m ≠ genName fn i) →
      ∀ (j : Nat) (fs : FS), fs.ex m = false →
        ((rotateLoopN fs fn k j).ex m = false) := by
  intro k
  induction k with
  | zero =>
    intro _ j fs hfs
    cases j <;> simpa [rotateLoopN] using hfs
  | succ n ih =>
    intro hb j fs hfs
    cases j with
    | zero => simpa [rotateLoopN] using hfs
    | succ j =>
      rw [rotateLoopN]
      by_cases h : fs.ex (genName fn n)
      · simp only [if_pos h]
        refine ih (fun i hi => hb i (by omega)) j _ ?_
        rw [FS.ex_rename_ne _ _ _ _ (hb n (by omega)) (hb (n + 1) (by omega))]
        exact hfs
      · simp only [if_neg h]
        exact ih (fun i hi => hb i (by omega)) j fs hfs

theorem rotatefile_ex_preserve (fn m : Str) (mx : Nat) (fs : FS)
    (hb : ∀ i, i ≤ mx - 1 → m ≠ genName fn i) (hfs : fs.ex m = false) :
    (rotatefile fs fn mx).1.ex m = false := by
  rw [rotatefile]
  refine rotateLoop_ex_preserve fn m (mx - 1) _ hb ?_
  rw [FS.ex_remove]
  simp [hfs]

theorem rotatefileSteps_ex_preserve (fn m : Str) (mx j : Nat) (fs : FS)
    (hb : ∀ i, i ≤ mx - 1 → m ≠ genName fn i) (hfs : fs.ex m = false) :
    (rotatefileSteps fs fn mx j).ex m = false := by
  rw [rotatefileSteps]
  by_cases hj : j = 0
  · simp [hj, hfs]
  · rw [if_neg hj]
    refine rotateLoopN_ex_preserve fn m (mx - 1) hb (j - 1) _ ?_
    rw [FS.ex_remove]
    simp [hfs]

theorem errorCall_basic (s : LState) (msg : Str) (now : GoTime)
    (c : Option (Str × Nat)) :
    (errorCall s msg now c).lg.prio = s.lg.prio ∧
    (errorCall s msg now c).lg.flag = s.lg.flag ∧
    (errorCall s msg now c).lg.out = s.lg.out ∧
    (errorCall s msg now c).fs = s.fs ∧
    (errorCall s msg now c).liveOpen = s.liveOpen ∧
    (errorCall s msg now c).panicked = s.panicked ∧
    (errorCall s msg now c).queued =
      (if s.lg.Loggable LOG_ERR then
        s.queued ++ [(ofmt s.lg 3 LOG_ERR msg now c).1] else s.queued) := by
  unfold errorCall
  cases h : s.lg.Loggable LOG_ERR <;> simp [h]

theorem rotFail_spec (s : LState) (ctx : RotCtx) (rt : Bool) (es : Str) :
    (rotFail s ctx rt es).lg.out = .stderr ∧
    (rotFail s ctx rt es).liveOpen = false ∧
    (rotFail s ctx rt es).lg.flag &&& lClose = 0 ∧
    (rotFail s ctx rt es).fs = (if rt then s.fs.remove ctx.tmp else s.fs) ∧
    (rotFail s ctx rt es).panicked = s.panicked ∧
    (s.lg.Loggable LOG_ERR = true →
      ∃ r1 r2, (rotFail s ctx rt es).queued = s.queued ++ [r1, r2]) ∧
    (s.lg.Loggable LOG_ERR = false →
      (rotFail s ctx rt es).queued = s.queued) := by
  by_cases hP : LOG_NONE < s.lg.prio ∧ s.lg.prio ≤ LOG_ERR
  · have hL : s.lg.Loggable LOG_ERR = true := by
      simp [XLogger.Loggable, hP.1, hP.2]
    refine ⟨?_, ?_, ?_, ?_, ?_, fun _ => ?_, fun hc => ?_⟩
    · cases rt <;> simp [rotFail, errorCall, XLogger.Loggable, hP.1, hP.2]
    · cases rt <;> simp [rotFail, errorCall, XLogger.Loggable, hP.1, hP.2]
    · cases rt <;>
        simp [rotFail, errorCall, XLogger.Loggable, hP.1, hP.2, ldiff_and_self]
    · cases rt <;> simp [rotFail, errorCall, XLogger.Loggable, hP.1, hP.2]
    · cases rt <;> simp [rotFail, errorCall, XLogger.Loggable, hP.1, hP.2]
    · cases rt <;> simp [rotFail, errorCall, XLogger.Loggable, hP.1, hP.2]
    · rw [hL] at hc
      cases hc
  · have hL : s.lg.Loggable LOG_ERR = false := by
      cases h : s.lg.Loggable LOG_ERR
      · rfl
      · exfalso
        apply hP
        simp [XLogger.Loggable] at h
        exact ⟨h.1, h.2⟩
    have hnP1 : ¬(LOG_NONE < s.lg.prio ∧ s.lg.prio ≤ LOG_ERR) := hP
    refine ⟨?_, ?_, ?_, ?_, ?_, fun hc => ?_, fun _ => ?_⟩
    · cases rt <;> simp [rotFail, errorCall, XLogger.Loggable, hnP1]
    · cases rt <;> simp [rotFail, errorCall, XLogger.Loggable, hnP1]
    · cases rt <;>
        simp [rotFail, errorCall, XLogger.Loggable, hnP1, ldiff_and_self]
    · cases rt <;> simp [rotFail, errorCall, XLogger.Loggable, hnP1]
    · cases rt <;> simp [rotFail, errorCall, XLogger.Loggable, hnP1]
    · rw [hL] at hc
      cases hc
    · cases rt <;> simp [rotFail, errorCall, XLogger.Loggable, hnP1]

theorem rotFail_c4 (x : LState) (ctx : RotCtx) (rt : Bool) (es : Str)
    (q0 : List Str) (pk : Bool)
    (hfs : rt = true ∨ x.fs.ex ctx.tmp = false)
    (hq : x.queued = q0) (hpk : x.panicked = pk)
    (hL : x.lg.Loggable LOG_ERR = true) :
    (rotFail x ctx rt es).fs.ex ctx.tmp = false ∧
    (rotFail x ctx rt es).liveOpen = false ∧
    (rotFail x ctx rt es).lg.out = .stderr ∧
    (rotFail x ctx rt es).lg.flag &&& lClose = 0 ∧
    (∃ r1 r2, (rotFail x ctx rt es).queued = q0 ++ [r1, r2]) ∧
    (rotFail x ctx rt es).panicked = pk := by
  obtain ⟨o1, o2, o3, o4, o5, o6, o7⟩ := rotFail_spec x ctx rt es
  refine ⟨?_, o2, o1, o3, ?_, by rw [o5, hpk]⟩
  · rw [o4]
    cases rt
    · simpa using hfs.resolve_left (by simp)
    · simp [FS.ex_remove]
  · obtain ⟨r1, r2, hr⟩ := o6 hL
    exact ⟨r1, r2, by rw [hr, hq]⟩

/-- C4 amended: when any step of a rotation fails on a file-backed logger
whose priority admits LOG_ERR records, the rotation aborts leaving no
partial temp file behind, the live file handle is closed, the destination
is switched to the standard error fallback, the error and the fallback
notice are enqueued as two records written through the switched
destination, the close-destination-on-Close responsibility (lClose) is
cleared, and no error or panic reaches producers (rotateLog returns no
error value and the panicked marker is unchanged). -/
theorem c4_degraded (s : LState) (ctx : RotCtx)
    (hout : s.lg.out = .fileD)
    (hany : ctx.faults.any = true)
    (hfs0 : s.fs.ex ctx.tmp = false)
    (hbound : ∀ i, i < s.lg.rot_n → ctx.tmp ≠ genName s.lg.name i)
    (hk : 1 ≤ s.lg.rot_n)
    (hL : s.lg.Loggable LOG_ERR = true) :
    (rotateLog s ctx).1.fs.ex ctx.tmp = false ∧
    (rotateLog s ctx).1.liveOpen = false ∧
    (rotateLog s ctx).1.lg.out = .stderr ∧
    (rotateLog s ctx).1.lg.flag &&& lClose = 0 ∧
    (∃ r1 r2, (rotateLog s ctx).1.queued = s.queued ++ [r1, r2]) ∧
    (rotateLog s ctx).1.panicked = s.panicked := by
  have hnn : ¬s.lg.out ≠ Dest.fileD := by rw [hout]; simp
  have hb1 : ∀ i, i ≤ s.lg.rot_n - 1 → ctx.tmp ≠ genName s.lg.name i :=
    fun i hi => hbound i (by omega)
  have hgz : ctx.tmp ≠ genName s.lg.name 0 := hbound 0 (by omega)
  rw [rotateLog, if_neg hnn]
  cases h1 : ctx.faults.syncF
  case true =>
    simp only [h1, if_true]
    exact rotFail_c4 _ ctx _ _ s.queued s.panicked (Or.inr hfs0) rfl rfl hL
  case false =>
  cases h2 : ctx.faults.seekF
  case true =>
    simp only [h1, h2, Bool.false_eq_true, if_false, if_true]
    exact rotFail_c4 _ ctx _ _ s.queued s.panicked (Or.inr hfs0) rfl rfl hL
  case false =>
  cases h3 : ctx.faults.rotF
  case true =>
    simp only [h1, h2, h3, Bool.false_eq_true, if_false, if_true]
    exact rotFail_c4 _ ctx _ _ s.queued s.panicked
      (Or.inr (rotatefileSteps_ex_preserve s.lg.name ctx.tmp s.lg.rot_n
        ctx.faults.rotJ s.fs hb1 hfs0)) rfl rfl hL
  case false =>
  cases h4 : ctx.faults.createF
  case true =>
    simp only [h1, h2, h3, h4, Bool.false_eq_true, if_false, if_true]
    exact rotFail_c4 _ ctx _ _ s.queued s.panicked
      (Or.inr (rotatefile_ex_preserve s.lg.name ctx.tmp s.lg.rot_n s.fs hb1 hfs0))
      rfl rfl hL
  case false =>
  cases h5 : ctx.faults.gzipNewF
  case true =>
    simp only [h1, h2, h3, h4, h5, Bool.false_eq_true, if_false, if_true]
    exact rotFail_c4 _ ctx _ _ s.queued s.panicked (Or.inl rfl) rfl rfl hL
  case false =>
  cases h6 : ctx.faults.copyF
  case true =>
    simp only [h1, h2, h3, h4, h5, h6, Bool.false_eq_true, if_false, if_true]
    exact rotFail_c4 _ ctx _ _ s.queued s.panicked (Or.inl rfl) rfl rfl hL
  case false =>
  cases h7 : ctx.faults.gzipCloseF
  case true =>
    simp only [h1, h2, h3, h4, h5, h6, h7, Bool.false_eq_true, if_false, if_true]
    exact rotFail_c4 _ ctx _ _ s.queued s.panicked (Or.inl rfl) rfl rfl hL
  case false =>
  cases h8 : ctx.faults.closeF
  case true =>
    simp only [h1, h2, h3, h4, h5, h6, h7, h8, Bool.false_eq_true, if_false,
      if_true]
    exact rotFail_c4 _ ctx _ _ s.queued s.panicked (Or.inl rfl) rfl rfl hL
  case false =>
  cases h9 : ctx.faults.renameF
  case true =>
    simp only [h1, h2, h3, h4, h5, h6, h7, h8, h9, Bool.false_eq_true, if_false,
      if_true]
    exact rotFail_c4 _ ctx _ _ s.queued s.panicked (Or.inl rfl) rfl rfl hL
  case false =>
  cases h10 : ctx.faults.truncF
  case true =>
    simp only [h1, h2, h3, h4, h5, h6, h7, h8, h9, h10, Bool.false_eq_true,
      if_false, if_true]
    exact rotFail_c4 _ ctx _ _ s.queued s.panicked
      (Or.inr (FS.ex_rename_src _ _ _ hgz)) rfl rfl hL
  case false =>
  cases h11 : ctx.faults.seek2F
  case true =>
    simp only [h1, h2, h3, h4, h5, h6, h7, h8, h9, h10, h11, Bool.false_eq_true,
      if_false, if_true]
    exact rotFail_c4 _ ctx _ _ s.queued s.panicked
      (Or.inr (FS.ex_rename_src _ _ _ hgz)) rfl rfl hL
  case false =>
    exfalso
    simp [Faults.any, h1, h2, h3, h4, h5, h6, h7, h8, h9, h10, h11] at hany

/-- C4 counterexample: with configured priority LOG_CRIT a failing
rotation still switches the destination to stderr, but the Error calls in
the failure path are filtered out by Loggable(LOG_ERR), so neither the
error nor the fallback notice is ever logged, contradicting the claim as
stated. -/
theorem c4_counterexample :
    (rotateLog { cSt with lg := { cLg with prio := LOG_CRIT } } cCtxFail).1.lg.out
        = .stderr ∧
    (rotateLog { cSt with lg := { cLg with prio := LOG_CRIT } } cCtxFail).1.queued
        = [] := by
  decide

/-- Witness for C4 amended: a gzip-copy failure on the concrete world with
priority LOG_INFO. -/
theorem c4_witness :
    cSt.lg.out = .fileD ∧ cCtxFail.faults.any = true ∧
    cSt.fs.ex cCtxFail.tmp = false ∧ 1 ≤ cSt.lg.rot_n ∧
    cSt.lg.Loggable LOG_ERR = true ∧
    ((rotateLog cSt cCtxFail).1.fs.ex cCtxFail.tmp = false ∧
     (rotateLog cSt cCtxFail).1.liveOpen = false ∧
     (rotateLog cSt cCtxFail).1.lg.out = .stderr ∧
     (rotateLog cSt cCtxFail).1.lg.flag &&& lClose = 0 ∧
     (∃ r1 r2, (rotateLog cSt cCtxFail).1.queued = cSt.queued ++ [r1, r2]) ∧
     (rotateLog cSt cCtxFail).1.panicked = cSt.panicked) :=
  ⟨rfl, by decide, by decide, by decide, by decide,
   c4_degraded cSt cCtxFail rfl (by decide) (by decide)
     (by decide) (by decide) (by decide)⟩

/-- C6: Close on a root logger is idempotent: only the first call closes
the queue, waits for the writer to drain, emits the final record, and
closes an owned file destination; every later call returns nil and changes
nothing; Close on a sub-logger is a no-op returning nil that never touches
the shared queue, writer, or file. -/
theorem c6_close :
    (∀ l : CLogger, l.flag &&& lSublog = 0 → l.chClosed = false →
      (closeLogger l).2 = none ∧
      (closeLogger l).1.chClosed = true ∧
      (closeLogger l).1.chOpenForSend = false ∧
      (closeLogger l).1.drained = true ∧
      (closeLogger l).1.wrote = l.wrote ++
        [str "xLogger at level " ++ prioStr l.prio ++ str " closed."] ∧
      (l.flag &&& lClose ≠ 0 → (closeLogger l).1.fdOpen = false) ∧
      closeLogger (closeLogger l).1 = ((closeLogger l).1, none)) ∧
    (∀ l : CLogger, l.flag &&& lSublog ≠ 0 → closeLogger l = (l, none)) := by
  constructor
  · intro l hroot hopen
    have hn1 : ¬l.flag &&& lSublog ≠ 0 := by simp [hroot]
    by_cases hc : l.flag &&& lClose ≠ 0
    · simp [closeLogger, hn1, hopen, hc]
    · simp [closeLogger, hn1, hopen, hc]
  · intro l hsub
    simp [closeLogger, hsub]

/-- Witness for C6: a root file-backed logger closed twice and a
sub-logger closed once. -/
theorem c6_witness :
    (({ flag := lClose, prio := LOG_INFO } : CLogger).flag &&& lSublog = 0) ∧
    (({ flag := lClose, prio := LOG_INFO } : CLogger).chClosed = false) ∧
    ((closeLogger { flag := lClose, prio := LOG_INFO }).2 = none ∧
     (closeLogger { flag := lClose, prio := LOG_INFO }).1.chClosed = true ∧
     (closeLogger { flag := lClose, prio := LOG_INFO }).1.chOpenForSend = false ∧
     (closeLogger { flag := lClose, prio := LOG_INFO }).1.drained = true ∧
     (closeLogger { flag := lClose, prio := LOG_INFO }).1.wrote =
       ({ flag := lClose, prio := LOG_INFO } : CLogger).wrote ++
         [str "xLogger at level " ++ prioStr LOG_INFO ++ str " closed."] ∧
     (({ flag := lClose, prio := LOG_INFO } : CLogger).flag &&& lClose ≠ 0 →
       (closeLogger { flag := lClose, prio := LOG_INFO }).1.fdOpen = false) ∧
     closeLogger (closeLogger { flag := lClose, prio := LOG_INFO }).1 =
       ((closeLogger { flag := lClose, prio := LOG_INFO }).1, none)) ∧
    (closeLogger { flag := lClose ||| lSublog, prio := LOG_INFO } =
      ({ flag := lClose ||| lSublog, prio := LOG_INFO }, none)) :=
  ⟨by decide, rfl,
   c6_close.1 { flag := lClose, prio := LOG_INFO } (by decide) rfl,
   c6_close.2 { flag := lClose ||| lSublog, prio := LOG_INFO } (by decide)⟩

theorem qrun_append (s : LState) (xs ys : List Qev) :
    qrun s (xs ++ ys) =
      ((qrun (qrun s xs).1 ys).1, (qrun s xs).2 ++ (qrun (qrun s xs).1 ys).2) := by
  induction xs generalizing s with
  | nil => simp [qrun]
  | cons e t ih => simp [qrun, ih, List.append_assoc]

theorem qrun_log_cons (s : LState) (es : List Qev) (buf : Str) :
    qrun s ({ ty := 0, buf := buf } :: es) =
      ((qrun s es).1, buf :: (qrun s es).2) := by
  simp [qrun, qstep]

/-- C7: the single writer applies enqueued events to the destination in
exactly FIFO enqueue order: for any two log records a and b enqueued in
that order, with arbitrary events before, between and after them, the
write trace is the trace of the prefix, then a as one contiguous Write,
then the trace of the middle, then b as one contiguous Write, then the
trace of the suffix, with the states threaded in the same order. -/
theorem c7_writer_order (s : LState) (xs ys zs : List Qev) (a b : Str) :
    (qrun s (xs ++ { ty := 0, buf := a } ::
        (ys ++ { ty := 0, buf := b } :: zs))).2 =
      (qrun s xs).2 ++ [a] ++ (qrun (qrun s xs).1 ys).2 ++ [b] ++
        (qrun (qrun (qrun s xs).1 ys).1 zs).2 := by
  rw [qrun_append, qrun_log_cons, qrun_append, qrun_log_cons]
  simp [List.append_assoc]

theorem itoaCoreF_irrel :
    ∀ (f g u wid : Nat), u + wid ≤ f → u + wid ≤ g →
      itoaCoreF f u wid = itoaCoreF g u wid := by
  intro f
  induction f with
  | zero =>
    intro g u wid hf hg
    have hu : u = 0 := by omega
    have hw : wid = 0 := by omega
    subst hu; subst hw
    cases g with
    | zero => rfl
    | succ g =>
      rw [itoaCoreF, itoaCoreF]
      norm_num
  | succ f ih =>
    intro g u wid hf hg
    cases g with
    | zero =>
      have hu : u = 0 := by omega
      have hw : wid = 0 := by omega
      subst hu; subst hw
      rw [itoaCoreF, itoaCoreF]
      norm_num
    | succ g =>
      rw [itoaCoreF, itoaCoreF]
      by_cases hc : 10 ≤ u ∨ 1 < wid
      · rw [if_pos hc, if_pos hc]
        have hlt : u / 10 + (wid - 1) + 1 ≤ u + wid := by
          rcases hc with hc | hc
          · have hd : u / 10 < u := Nat.div_lt_self (by omega) (by omega)
            omega
          · have hd : u / 10 ≤ u := Nat.div_le_self u 10
            omega
        rw [ih g (u / 10) (wid - 1) (by omega) (by omega)]
      · rw [if_neg hc, if_neg hc]

theorem itoaCore_eq (u wid : Nat) :
    itoaCore u wid =
      if 10 ≤ u ∨ 1 < wid then
        itoaCore (u / 10) (wid - 1) ++ [Char.ofNat (48 + u % 10)]
      else [Char.ofNat (48 + u)] := by
  rw [itoaCore, itoaCore]
  cases hs : u + wid with
  | zero =>
    have hu : u = 0 := by omega
    have hw : wid = 0 := by omega
    subst hu; subst hw
    rw [itoaCoreF]
    norm_num
  | succ s =>
    rw [itoaCoreF]
    by_cases hc : 10 ≤ u ∨ 1 < wid
    · rw [if_pos hc, if_pos hc]
      have hlt : u / 10 + (wid - 1) + 1 ≤ u + wid := by
        rcases hc with hc | hc
        · have hd : u / 10 < u := Nat.div_lt_self (by omega) (by omega)
          omega
        · have hd : u / 10 ≤ u := Nat.div_le_self u 10
          omega
      rw [itoaCoreF_irrel s (u / 10 + (wid - 1)) (u / 10) (wid - 1)
        (by omega) (by omega)]
    · rw [if_neg hc, if_neg hc]

theorem digit_ne_plus (d : Nat) (hd : d < 10) : Char.ofNat (48 + d) ≠ '+' := by
  interval_cases d <;> decide

theorem itoaCore_cons : ∀ (n u wid : Nat), u + wid ≤ n →
    ∃ d cs, d < 10 ∧ itoaCore u wid = Char.ofNat (48 + d) :: cs := by
  intro n
  induction n with
  | zero =>
    intro u wid h
    have hu : u = 0 := by omega
    have hw : wid = 0 := by omega
    subst hu; subst hw
    exact ⟨0, [], by omega, by decide⟩
  | succ n ih =>
    intro u wid h
    rw [itoaCore_eq]
    by_cases hc : 10 ≤ u ∨ 1 < wid
    · rw [if_pos hc]
      have hlt : u / 10 + (wid - 1) ≤ n := by
        rcases hc with hc | hc
        · have hd : u / 10 < u := Nat.div_lt_self (by omega) (by omega)
          omega
        · have hd : u / 10 ≤ u := Nat.div_le_self u 10
          omega
      obtain ⟨d, cs, hd10, heq⟩ := ih (u / 10) (wid - 1) hlt
      exact ⟨d, cs ++ [Char.ofNat (48 + u % 10)], hd10, by rw [heq]; simp⟩
    · rw [if_neg hc]
      push_neg at hc
      exact ⟨u, [], by omega, rfl⟩

theorem isRelHdr_digit_cons (d : Nat) (hd : d < 10) (rest : Str) :
    isRelHdr (Char.ofNat (48 + d) :: rest) = false := by
  simp [isRelHdr, digit_ne_plus d hd]

theorem timestamp_head (t : GoTime) (fl : Nat)
    (h7 : ¬fl &&& (Ldate ||| Ltime ||| Lmicroseconds) = 0)
    (hdb : (fl &&& Ldate != 0) = true) :
    ∃ d rest, d < 10 ∧ timestamp [] t fl = Char.ofNat (48 + d) :: rest := by
  obtain ⟨d, cs, hd10, heq⟩ := itoaCore_cons (t.year + 4) t.year 4 (by omega)
  rw [timestamp, if_neg h7]
  simp only [hdb, if_true, itoa, List.nil_append]
  by_cases hti : (fl &&& (Ltime ||| Lmicroseconds) != 0) = true
  · simp only [hti, if_true]
    by_cases hmi : (fl &&& Lmicroseconds != 0) = true
    · simp only [hmi, if_true]
      rw [heq]
      simp only [List.cons_append, List.append_assoc]
      exact ⟨d, _, hd10, rfl⟩
    · simp only [hmi, Bool.false_eq_true, if_false]
      rw [heq]
      simp only [List.cons_append, List.append_assoc]
      exact ⟨d, _, hd10, rfl⟩
  · simp only [hti, Bool.false_eq_true, if_false]
    rw [heq]
    simp only [List.cons_append, List.append_assoc]
    exact ⟨d, _, hd10, rfl⟩

theorem timestamp_not_plus (t : GoTime) (fl : Nat) (hd : fl &&& Ldate ≠ 0)
    (x : Str) : isRelHdr (timestamp [] t fl ++ x) = false := by
  have h7 : ¬fl &&& (Ldate ||| Ltime ||| Lmicroseconds) = 0 := by
    intro h0
    apply hd
    have hmask : (Ldate ||| Ltime ||| Lmicroseconds) &&& Ldate = Ldate := by decide
    calc fl &&& Ldate
        = fl &&& ((Ldate ||| Ltime ||| Lmicroseconds) &&& Ldate) := by rw [hmask]
      _ = fl &&& (Ldate ||| Ltime ||| Lmicroseconds) &&& Ldate := by
          rw [Nat.land_assoc]
      _ = 0 := by rw [h0]; simp
  have hdb : (fl &&& Ldate != 0) = true := by simpa using hd
  obtain ⟨d, rest, hd10, heq⟩ := timestamp_head t fl h7 hdb
  rw [heq]
  exact isRelHdr_digit_cons d hd10 _

theorem date_land_ne (a : Nat) : (a ||| Ldate ||| Ltime) &&& Ldate ≠ 0 := by
  intro h
  have hb := congrArg (fun x => Nat.testBit x 0) h
  simp only [Nat.testBit_land, Nat.testBit_lor, Nat.zero_testBit] at hb
  rw [show Nat.testBit Ldate 0 = true from by decide,
    show Nat.testBit Ltime 0 = false from by decide] at hb
  simp at hb

theorem headerRun_first (l : XLogger) (t : GoTime) (ts : List GoTime)
    (hrel : l.flag &&& Lreltime ≠ 0) (hst : l.relstart = false) :
    headerRun l (t :: ts) =
      timestamp [] t (l.flag ||| Ldate ||| Ltime)
        :: headerRun { l with relstart := true } ts := by
  rw [headerRun, formatHeader, if_neg hrel]
  simp [hst]

theorem headerRun_rel_all : ∀ (ts : List GoTime) (l : XLogger),
    l.flag &&& Lreltime ≠ 0 → l.relstart = true →
    ∀ h ∈ headerRun l ts, isRelHdr h = true := by
  intro ts
  induction ts with
  | nil =>
    intro l _ _ h hm
    simp [headerRun] at hm
  | cons t ts ih =>
    intro l hrel hst h hm
    rw [headerRun, formatHeader, if_neg hrel] at hm
    simp only [hst, if_true, List.nil_append] at hm
    rcases List.mem_cons.mp hm with hm | hm
    · subst hm
      simp [isRelHdr, str]
    · exact ih { l with relstart := true } hrel rfl h hm

theorem timestamp_append (out : Str) (t : GoTime) (fl : Nat) :
    timestamp out t fl = out ++ timestamp [] t fl := by
  rw [timestamp, timestamp]
  by_cases h7 : fl &&& (Ldate ||| Ltime ||| Lmicroseconds) = 0
  · simp [h7]
  · rw [if_neg h7, if_neg h7]
    by_cases hdb : (fl &&& Ldate != 0) = true
    · simp only [hdb, if_true, itoa, List.nil_append]
      by_cases hti : (fl &&& (Ltime ||| Lmicroseconds) != 0) = true
      · simp only [hti, if_true]
        by_cases hmi : (fl &&& Lmicroseconds != 0) = true
        · simp only [hmi, if_true]
          simp [List.append_assoc]
        · simp only [hmi, Bool.false_eq_true, if_false]
          simp [List.append_assoc]
      · simp only [hti, Bool.false_eq_true, if_false]
        simp [List.append_assoc]
    · simp only [hdb, Bool.false_eq_true, if_false, itoa, List.nil_append]
      by_cases hti : (fl &&& (Ltime ||| Lmicroseconds) != 0) = true
      · simp only [hti, if_true]
        by_cases hmi : (fl &&& Lmicroseconds != 0) = true
        · simp only [hmi, if_true]
          simp [List.append_assoc]
        · simp only [hmi, Bool.false_eq_true, if_false]
          simp [List.append_assoc]
      · simp only [hti, Bool.false_eq_true, if_false]
        simp

theorem rotFail_flag (x : LState) (ctx : RotCtx) (rt : Bool) (es : Str) :
    (rotFail x ctx rt es).lg.flag = goClear x.lg.flag lClose := by
  by_cases hP : LOG_NONE < x.lg.prio ∧ x.lg.prio ≤ LOG_ERR
  · cases rt <;> simp [rotFail, errorCall, XLogger.Loggable, hP.1, hP.2]
  · cases rt <;> simp [rotFail, errorCall, XLogger.Loggable, hP]

theorem rotateLog_flag_file (s : LState) (ctx : RotCtx)
    (hout : ¬s.lg.out ≠ Dest.fileD) :
    (rotateLog s ctx).1.lg.flag = s.lg.flag ∨
    (rotateLog s ctx).1.lg.flag = goClear s.lg.flag lClose := by
  rw [rotateLog, if_neg hout]
  cases h1 : ctx.faults.syncF
  case true =>
    simp only [h1, Bool.false_eq_true, if_false, if_true]
    exact Or.inr (rotFail_flag _ ctx _ _)
  case false =>
  cases h2 : ctx.faults.seekF
  case true =>
    simp only [h1, h2, Bool.false_eq_true, if_false, if_true]
    exact Or.inr (rotFail_flag _ ctx _ _)
  case false =>
  cases h3 : ctx.faults.rotF
  case true =>
    simp only [h1, h2, h3, Bool.false_eq_true, if_false, if_true]
    exact Or.inr (rotFail_flag _ ctx _ _)
  case false =>
  cases h4 : ctx.faults.createF
  case true =>
    simp only [h1, h2, h3, h4, Bool.false_eq_true, if_false, if_true]
    exact Or.inr (rotFail_flag _ ctx _ _)
  case false =>
  cases h5 : ctx.faults.gzipNewF
  case true =>
    simp only [h1, h2, h3, h4, h5, Bool.false_eq_true, if_false, if_true]
    exact Or.inr (rotFail_flag _ ctx _ _)
  case false =>
  cases h6 : ctx.faults.copyF
  case true =>
    simp only [h1, h2, h3, h4, h5, h6, Bool.false_eq_true, if_false, if_true]
    exact Or.inr (rotFail_flag _ ctx _ _)
  case false =>
  cases h7 : ctx.faults.gzipCloseF
  case true =>
    simp only [h1, h2, h3, h4, h5, h6, h7, Bool.false_eq_true, if_false, if_true]
    exact Or.inr (rotFail_flag _ ctx _ _)
  case false =>
  cases h8 : ctx.faults.closeF
  case true =>
    simp only [h1, h2, h3, h4, h5, h6, h7, h8, Bool.false_eq_true, if_false, if_true]
    exact Or.inr (rotFail_flag _ ctx _ _)
  case false =>
  cases h9 : ctx.faults.renameF
  case true =>
    simp only [h1, h2, h3, h4, h5, h6, h7, h8, h9, Bool.false_eq_true, if_false, if_true]
    exact Or.inr (rotFail_flag _ ctx _ _)
  case false =>
  cases h10 : ctx.faults.truncF
  case true =>
    simp only [h1, h2, h3, h4, h5, h6, h7, h8, h9, h10, Bool.false_eq_true, if_false, if_true]
    exact Or.inr (rotFail_flag _ ctx _ _)
  case false =>
  cases h11 : ctx.faults.seek2F
  case true =>
    simp only [h1, h2, h3, h4, h5, h6, h7, h8, h9, h10, h11, Bool.false_eq_true, if_false, if_true]
    exact Or.inr (rotFail_flag _ ctx _ _)
  case false =>
  simp only [h1, h2, h3, h4, h5, h6, h7, h8, h9, h10, h11, Bool.false_eq_true, if_false]
  exact Or.inl trivial

theorem rotateLog_flag (s : LState) (ctx : RotCtx) :
    (rotateLog s ctx).1.lg.flag = s.lg.flag ∨
    (rotateLog s ctx).1.lg.flag = goClear s.lg.flag lClose := by
  by_cases hout : s.lg.out ≠ Dest.fileD
  · rw [rotateLog, if_pos hout]
    exact Or.inl rfl
  · exact rotateLog_flag_file s ctx hout

theorem rotComplete_absolute (lg : XLogger) (now : GoTime)
    (hrel : lg.flag &&& Lreltime ≠ 0) (hsys : lg.flag &&& lSyslog = 0)
    (hrs : lg.relstart = false) :
    isRelHdr ((dprintf lg 0 LOG_INFO
        (str "Log rotation complete. Next rotate in +24 hours.") now none).1.drop 4)
      = false := by
  rw [dprintf]
  rw [if_neg (by omega : ¬(0 : Nat) > 0)]
  rw [ofmt]
  rw [if_neg (by decide :
    ¬(str "Log rotation complete. Next rotate in +24 hours.").length = 0)]
  simp only [hsys, if_pos rfl]
  rw [formatHeader, if_neg hrel]
  simp only [hrs, Bool.false_eq_true, if_false]
  rw [timestamp_append]
  rw [show str "<" ++ intStr LOG_INFO ++ str ">:" = ['<', '2', '>', ':'] from
    by decide]
  have hnp := timestamp_not_plus now (lg.flag ||| Ldate ||| Ltime)
    (date_land_ne lg.flag)
  by_cases hpf : lg.flag &&& lPrefix ≠ 0
  · simp only [hpf, if_true, List.cons_append, List.append_assoc,
      List.nil_append]
    split_ifs <;> simp [List.drop, List.append_assoc, hnp]
  · simp only [hpf, if_false, List.cons_append, List.append_assoc,
      List.nil_append]
    split_ifs <;> simp [List.drop, List.append_assoc, hnp]

/-- C5: with the relative-time flag set, a record formatted from the reset
state (the state at logger creation, re-established by the rotation timer
handler) carries the absolute date+time header and flips the
relative-timestamp-started flag, every record formatted from the started
state carries a plus-duration header, and processing a rotation timer
event resets the flag and then writes exactly one completion record whose
header, after the 4-character priority tag, is again absolute rather than
relative. -/
theorem c5_reltime :
    (∀ (l : XLogger) (t : GoTime) (ts : List GoTime),
        l.flag &&& Lreltime ≠ 0 → l.relstart = false →
        headerRun l (t :: ts) =
          timestamp [] t (l.flag ||| Ldate ||| Ltime)
            :: headerRun { l with relstart := true } ts ∧
        isRelHdr (timestamp [] t (l.flag ||| Ldate ||| Ltime)) = false) ∧
    (∀ (ts : List GoTime) (l : XLogger),
        l.flag &&& Lreltime ≠ 0 → l.relstart = true →
        ∀ h ∈ headerRun l ts, isRelHdr h = true) ∧
    (∀ (s : LState) (e : Qev),
        e.ty = 1 → s.lg.flag &&& lRotate ≠ 0 →
        s.lg.flag &&& Lreltime ≠ 0 → s.lg.flag &&& lSyslog = 0 →
        ∃ w, (qstep s e).2 = [w] ∧ isRelHdr (w.drop 4) = false) := by
  refine ⟨?_, headerRun_rel_all, ?_⟩
  · intro l t ts hrel hrs
    refine ⟨headerRun_first l t ts hrel hrs, ?_⟩
    have hx := timestamp_not_plus t (l.flag ||| Ldate ||| Ltime)
      (date_land_ne l.flag) []
    simpa using hx
  · intro s e hty hrot hrel hsys
    rw [qstep]
    rw [if_neg (by simp [hty] : ¬e.ty = 0), if_pos hty, if_pos hrot]
    refine ⟨_, rfl, ?_⟩
    rcases rotateLog_flag { s with rotCtxs := s.rotCtxs.tail }
        (s.rotCtxs.headD ⟨[], {}, defGoTime, none⟩) with hf | hf
    · apply rotComplete_absolute
      · show (rotateLog _ _).1.lg.flag &&& Lreltime ≠ 0
        rw [hf]
        exact hrel
      · show (rotateLog _ _).1.lg.flag &&& lSyslog = 0
        rw [hf]
        exact hsys
      · rfl
    · apply rotComplete_absolute
      · show (rotateLog _ _).1.lg.flag &&& Lreltime ≠ 0
        rw [hf, land_ldiff_disj _ _ _ (by decide : lClose &&& Lreltime = 0)]
        exact hrel
      · show (rotateLog _ _).1.lg.flag &&& lSyslog = 0
        rw [hf, land_ldiff_disj _ _ _ (by decide : lClose &&& lSyslog = 0)]
        exact hsys
      · rfl

/-- Witness for C5: the relative-time fixture formats an absolute first
header then a relative one, and a timer event on the rotating world writes
one completion record with an absolute header. -/
theorem c5_witness :
    (cRelLg.flag &&& Lreltime ≠ 0 ∧ cRelLg.relstart = false ∧
      (headerRun cRelLg (cT1 :: [cT2]) =
        timestamp [] cT1 (cRelLg.flag ||| Ldate ||| Ltime)
          :: headerRun { cRelLg with relstart := true } [cT2] ∧
       isRelHdr (timestamp [] cT1 (cRelLg.flag ||| Ldate ||| Ltime)) = false)) ∧
    ((⟨1, []⟩ : Qev).ty = 1 ∧ cRelSt.lg.flag &&& lRotate ≠ 0 ∧
      cRelSt.lg.flag &&& Lreltime ≠ 0 ∧ cRelSt.lg.flag &&& lSyslog = 0 ∧
      ∃ w, (qstep cRelSt ⟨1, []⟩).2 = [w] ∧ isRelHdr (w.drop 4) = false) :=
  ⟨⟨by decide, rfl,
    c5_reltime.1 cRelLg cT1 [cT2] (by decide) rfl⟩,
   ⟨rfl, by decide, by decide, by decide,
    c5_reltime.2.2 cRelSt ⟨1, []⟩ rfl (by decide) (by decide) (by decide)⟩⟩

theorem tok_infix_build (a tok m : Str) :
    tok <:+: (if (a ++ tok ++ m).length > 0 ∧ (a ++ tok ++ m).getLast? ≠ some '\n'
      then (a ++ tok ++ m) ++ [Char.ofNat 10] else (a ++ tok ++ m)) := by
  split_ifs with h
  · exact ⟨a, m ++ [Char.ofNat 10], by simp⟩
  · exact ⟨a, m, rfl⟩

theorem ofmt_tok (l : XLogger) (cd : Nat) (pr : Priority) (msg : Str)
    (now : GoTime) (caller : Option (Str × Nat))
    (hcd : cd > 0) (hfl : l.flag &&& Lfileloc > 0) (hm : ¬msg.length = 0) :
    fileLocTok l.flag caller <:+: (ofmt l cd pr msg now caller).1 := by
  simp only [ofmt]
  rw [if_neg hm, if_pos (⟨hcd, hfl⟩ : cd > 0 ∧ l.flag &&& Lfileloc > 0)]
  exact tok_infix_build _ _ _

/-- C8 counterexample: Info passes call depth 0 to Output, so even with the
file-location flag set the record it produces carries no location token for
the caller; here the caller frame resolves to /a/b/c.go line 42, yet the
token (c.go:42) does not occur in the emitted record. -/
theorem c8_counterexample :
    (InfoRec cFileLg (str "hello") cT1 (some (str "/a/b/c.go", 42))).isSome
        = true ∧
    ¬(str "(c.go:42) " <:+:
        (InfoRec cFileLg (str "hello") cT1 (some (str "/a/b/c.go", 42))).getD []) ∧
    ¬(str "(c.go:42) " <:+:
        (WarnRec { cFileLg with prio := LOG_WARN }
          (str "hello") cT1 (some (str "/a/b/c.go", 42))).getD []) := by
  decide

/-- C8 amended: the location token is emitted by the leveled calls that
pass a positive call depth - Debug, Error and Crit - whenever the
file-location flag is set: their records contain the token built from the
resolved caller frame, the short basename unless full path is requested,
degrading to file ??? and line 0 when resolution fails. Info and Warn pass
call depth 0 and never emit the token. -/
theorem c8_fileloc (l : XLogger) (msg : Str) (now : GoTime)
    (caller : Option (Str × Nat))
    (hfl : l.flag &&& Lfileloc > 0) (hm : msg ≠ []) :
    (∀ r, DebugRec l msg now caller = some r →
        fileLocTok l.flag caller <:+: r) ∧
    (∀ r, ErrorRec l msg now caller = some r →
        fileLocTok l.flag caller <:+: r) ∧
    (∀ r, CritRec l msg now caller = some r →
        fileLocTok l.flag caller <:+: r) ∧
    (caller = none → fileLocTok l.flag caller = str "(???:0) ") ∧
    (∀ f ln, caller = some (f, ln) → l.flag &&& Lfullpath = 0 →
        fileLocTok l.flag caller =
          str "(" ++ pathBase f ++ str ":" ++ natStr ln ++ str ") ") ∧
    (∀ f ln, caller = some (f, ln) → l.flag &&& Lfullpath ≠ 0 →
        fileLocTok l.flag caller =
          str "(" ++ f ++ str ":" ++ natStr ln ++ str ") ") := by
  have hm0 : ¬msg.length = 0 := by simpa [List.length_eq_zero] using hm
  refine ⟨?_, ?_, ?_, ?_, ?_, ?_⟩
  · intro r hr
    rw [DebugRec] at hr
    by_cases hg : l.Loggable LOG_DEBUG = true
    · rw [if_pos hg] at hr
      obtain rfl := (Option.some.inj hr).symm
      rw [Output, if_pos (by omega : (2 : Nat) > 0)]
      exact ofmt_tok l 3 _ msg now caller (by omega) hfl hm0
    · rw [if_neg hg] at hr
      cases hr
  · intro r hr
    rw [ErrorRec] at hr
    by_cases hg : l.Loggable LOG_ERR = true
    · rw [if_pos hg] at hr
      obtain rfl := (Option.some.inj hr).symm
      rw [Output, if_pos (by omega : (2 : Nat) > 0)]
      exact ofmt_tok l 3 _ msg now caller (by omega) hfl hm0
    · rw [if_neg hg] at hr
      cases hr
  · intro r hr
    rw [CritRec] at hr
    by_cases hg : l.Loggable LOG_CRIT = true
    · rw [if_pos hg] at hr
      obtain rfl := (Option.some.inj hr).symm
      rw [Output, if_pos (by omega : (2 : Nat) > 0)]
      exact ofmt_tok l 3 _ msg now caller (by omega) hfl hm0
    · rw [if_neg hg] at hr
      cases hr
  · intro hc
    subst hc
    by_cases hfp : l.flag &&& Lfullpath = 0
    · simp only [fileLocTok]
      rw [if_pos hfp]
      decide
    · simp only [fileLocTok]
      rw [if_neg hfp]
      decide
  · intro f ln hc hfp
    subst hc
    simp [fileLocTok, hfp]
  · intro f ln hc hfp
    subst hc
    simp [fileLocTok, hfp]

/-- Witness for C8 amended: the Debug record of the file-location fixture
contains the short-basename token for caller /a/b/c.go line 42. -/
theorem c8_witness :
    cFileLg.flag &&& Lfileloc > 0 ∧ str "hello" ≠ ([] : Str) ∧
    (∀ r, DebugRec cFileLg (str "hello") cT1 (some (str "/a/b/c.go", 42))
        = some r →
      fileLocTok cFileLg.flag (some (str "/a/b/c.go", 42)) <:+: r) :=
  ⟨by decide, by decide,
   (c8_fileloc cFileLg (str "hello") cT1 (some (str "/a/b/c.go", 42))
     (by decide) (by decide)).1⟩
